/-
Verification of the memfs in-memory filesystem engine (bbengfort/memfs).

This file gives a shallow embedding of the engine's data model and
operations, translated from the Go source:
  * the identifier generator (vendored package sequence, Sequence.Next),
  * Node shared state and its extended-attribute / setattr operations
    (node.go),
  * File buffer operations Read / Write / Setattr / Flush (file source),
  * Dir tree operations Create / Mkdir / Remove / Rename (dir.go),
and proves or refutes the specification claims about them.

Machine integers (Go uint64) are modelled as Nat with explicit reduction
modulo 2^64 at every arithmetic step where Go overflow semantics matter.
Go slices are modelled as Lists with capacity equal to length; a Go slice
expression whose bounds are out of range (a runtime panic) is modelled by
the `none` branch of an Option-valued embedding.  Wall-clock time is
abstracted as a Nat argument `now` supplied to each operation.  The Go heap
of tree nodes (pointer-linked Dir/File objects) is modelled as an
association list from numeric node ids to node records; each mutation of a
node through a pointer becomes an update of the association list, re-read
before every subsequent access, which reproduces Go's aliasing behaviour
(including when a rename's source and destination directory coincide).
-/
import Mathlib

namespace Memfs

/-- 2^64, the modulus of Go's uint64 arithmetic. -/
def U64 : Nat := 2 ^ 64

/-! ### Association lists

Go maps (`map[string]Entity`, the xattr map) and the pointer heap are
modelled as association lists with unique keys; insertion overwrites an
existing binding in place and deletion removes it. -/

/-- Lookup in an association list (Go map read `m[k]` / pointer lookup). -/
def alGet {α β : Type} [DecidableEq α] : List (α × β) → α → Option β
  | [], _ => none
  | (k, v) :: t, i => if k = i then some v else alGet t i

/-- Insert-or-overwrite in an association list (Go map write `m[k] = v`,
heap store through a pointer). -/
def alSet {α β : Type} [DecidableEq α] : List (α × β) → α → β → List (α × β)
  | [], i, w => [(i, w)]
  | (k, v) :: t, i, w => if k = i then (i, w) :: t else (k, v) :: alSet t i w

/-- Deletion from an association list (Go `delete(m, k)`). -/
def alErase {α β : Type} [DecidableEq α] : List (α × β) → α → List (α × β)
  | [], _ => []
  | (k, v) :: t, i => if k = i then t else (k, v) :: alErase t i

/-! ### The identifier generator

Embeds the vendored sequence package (`Sequence` struct and `Next`); the
`current` field is a uint64 and `Next` increments it with Go wrap-around
before the bound checks. -/

/-- The two error conditions `Sequence.Next` can report: falling below the
minimum bound or exceeding the maximum bound.  The maximum-bound error is
the engine's ResourceExhausted condition. -/
inductive SeqErr where
  | minReached
  | maxReached
deriving DecidableEq, Repr

/-- State of a sequence object (fields of the Go `Sequence` struct that
`Next` reads; `initialized` is irrelevant to `Next` and omitted). -/
structure Seq where
  current : Nat
  increment : Nat
  minvalue : Nat
  maxvalue : Nat
deriving DecidableEq, Repr

/-- `Sequence.Next`: increment `current` (uint64 wrap-around), then fail if
it fell below `minvalue` or exceeded `maxvalue`, else return it.  Returns
the pair Go returns (value, error) together with the updated state; the
value is 0 on error, as in Go. -/
def seqNext (s : Seq) : (Nat × Option SeqErr) × Seq :=
  let cur := (s.current + s.increment) % U64
  let s1 : Seq := { s with current := cur }
  if cur < s.minvalue then ((0, some SeqErr.minReached), s1)
  else if cur > s.maxvalue then ((0, some SeqErr.maxReached), s1)
  else ((cur, none), s1)

/-- The sequence the engine constructs: `sequence.New()` with no arguments,
counting by 1 from 1 to MaximumBound = 2^64 - 2, with
`current = minvalue - increment = 0`. -/
def defaultSeq : Seq :=
  { current := 0, increment := 1, minvalue := 1, maxvalue := U64 - 2 }

/-- The sequence state after `k` successive calls of `Next`. -/
def seqIter (s : Seq) : Nat → Seq
  | 0 => s
  | k + 1 => (seqNext (seqIter s k)).2

/-! ### Data model: attributes, nodes, the filesystem state

Translated from node.go (struct Node, fuse.Attr fields the engine reads or
writes), dir.go (struct Dir), the file source (struct File) and the uses of
the engine's fields (`fs.readonly`, `fs.uid`, `fs.gid`, `fs.nfiles`,
`fs.ndirs`, `fs.nbytes`, `fs.Sequence`, the root directory) throughout
dir.go / node.go / the file source; the engine struct's own declaration is
in a repository file not present under src/ but every field is pinned down
by those uses. -/

/-- The fuse error values the engine returns, named as in the source:
`fuse.EPERM`, `fuse.EEXIST`, `fuse.EIO`, `fuse.ENOENT`,
`fuse.ErrNoXattr`. -/
inductive FuseErr where
  | eperm
  | eexist
  | eio
  | enoent
  | enoxattr
deriving DecidableEq, Repr

/-- The attribute fields (`fuse.Attr`) that the engine initializes, reads
or writes.  All numeric fields are uint64/uint32 values carried as Nat;
times are abstract Nat instants. -/
structure Attrs where
  inode : Nat
  size : Nat
  blocks : Nat
  atime : Nat
  mtime : Nat
  ctime : Nat
  crtime : Nat
  mode : Nat
  nlink : Nat
  uid : Nat
  gid : Nat
  flags : Nat
deriving DecidableEq, Repr

/-- The owned payload distinguishing the two concrete node kinds: a File's
byte buffer (`File.Data`) or a Dir's name-keyed children map
(`Dir.Children`, child entities referenced by their heap id). -/
inductive NodePayload where
  | file (data : List Nat)
  | dir (children : List (String × Nat))
deriving DecidableEq, Repr

/-- A tree node: the shared `Node` fields (node.go struct Node) plus the
kind-specific payload.  `parent` is the non-owning upward link (`none` only
for the root). -/
structure FsNode where
  id : Nat
  name : String
  attrs : Attrs
  xattrs : List (String × List Nat)
  parent : Option Nat
  payload : NodePayload
deriving DecidableEq, Repr

/-- The filesystem engine state: the node heap (Go's pointer graph keyed by
node id), the root id, the inode sequence, the three counters (uint64),
the readonly flag and the process uid/gid. -/
structure FS where
  heap : List (Nat × FsNode)
  rootId : Nat
  seq : Seq
  nfiles : Nat
  ndirs : Nat
  nbytes : Nat
  readonly : Bool
  uid : Nat
  gid : Nat
deriving DecidableEq, Repr

/-- `Node.IsArchive` (node.go): archives are not implemented, always
false. -/
def nodeIsArchive (_ : FsNode) : Bool := false

/-- `Node.IsDir` (node.go): inspects the `os.ModeDir` bit (bit 31) of the
mode. -/
def nodeIsDir (n : FsNode) : Bool := n.attrs.mode.testBit 31

/-- The attribute set `Node.Init` (node.go) produces: inode from the drawn
id, size and blocks zero, all four times the current instant, the given
mode, nlink 1, the process uid/gid, flags zero (Go zero value, not set by
Init). -/
def initAttrs (id : Nat) (mode : Nat) (now : Nat) (uid gid : Nat) : Attrs :=
  { inode := id, size := 0, blocks := 0, atime := now, mtime := now,
    ctime := now, crtime := now, mode := mode, nlink := 1, uid := uid,
    gid := gid, flags := 0 }

/-! ### File operations (file source: Read, Write, Setattr, Flush)

These are methods of `*File`; the engine state they touch beyond the file
itself is only the readonly flag and the `nbytes` counter, which are passed
and returned explicitly. -/

/-- `File.Read`: computes `to = min(offset + size, Attrs.Size)` (uint64
addition) and returns the slice `Data[offset:to]`, after updating atime.
The Go slice expression requires `offset ≤ to ≤ len(Data)`; outside that
range the operation panics, modelled by `none`. -/
def fileRead (f : FsNode) (off sz : Nat) (now : Nat) :
    Option (FsNode × List Nat) :=
  match f.payload with
  | NodePayload.dir _ => none
  | NodePayload.file data =>
    let to0 := (off + sz) % U64
    let hi := if to0 > f.attrs.size then f.attrs.size else to0
    if off ≤ hi ∧ hi ≤ data.length then
      some ({ f with attrs := { f.attrs with atime := now } },
            (data.drop off).take (hi - off))
    else none

/-- `File.Write`: with `olen = len(Data)`, `wlen = len(payload)` and
`lim = offset + wlen` (uint64), grows the buffer to length `lim` when
`lim > olen` — copying the old bytes `[0, min(offset, olen))`, zero-filling
the rest, setting the size attribute to `lim` and adding `lim - olen` to
`nbytes` — then copies the payload over `Data[offset:lim]` and sets mtime.
Returns (error, file, nbytes, reported byte count).  A readonly (or
archive) filesystem fails with EPERM before any mutation.  The Go slice
expression `Data[offset:lim]` requires `offset ≤ lim`; otherwise the
operation panics (`none`). -/
def fileWrite (ro : Bool) (nbytes : Nat) (f : FsNode) (off : Nat)
    (payload : List Nat) (now : Nat) :
    Option (Option FuseErr × FsNode × Nat × Nat) :=
  if nodeIsArchive f || ro then some (some FuseErr.eperm, f, nbytes, 0) else
  match f.payload with
  | NodePayload.dir _ => none
  | NodePayload.file data =>
    let olen := data.length
    let wlen := payload.length
    let lim := (off + wlen) % U64
    if lim > olen then
      let keep := if off < olen then off else olen
      let buf := data.take keep ++ List.replicate (lim - keep) 0
      if off ≤ lim then
        let moved := min (lim - off) wlen
        let newData := buf.take off ++ payload.take moved ++ buf.drop (off + moved)
        some (none,
              { f with payload := NodePayload.file newData,
                       attrs := { f.attrs with size := lim, mtime := now } },
              (nbytes + (lim - olen)) % U64, wlen)
      else none
    else
      if off ≤ lim then
        let moved := min (lim - off) wlen
        let newData := data.take off ++ payload.take moved ++ data.drop (off + moved)
        some (none,
              { f with payload := NodePayload.file newData,
                       attrs := { f.attrs with mtime := now } },
              nbytes, wlen)
      else none

/-- `File.Flush`: a no-op that fails with EPERM on a readonly (or archive)
filesystem. -/
def fileFlush (ro : Bool) (f : FsNode) : Option FuseErr :=
  if nodeIsArchive f || ro then some FuseErr.eperm else none

/-- A `fuse.SetattrRequest`: the validity bitmask (one flag per field) and
the field values the engine reads.  Handle, lock-owner, backup-time and
change-time flags are accepted but only logged by the source, so their
value fields are irrelevant and omitted. -/
structure SetattrRequest where
  validSize : Bool
  validAtime : Bool
  validAtimeNow : Bool
  validMtime : Bool
  validMtimeNow : Bool
  validMode : Bool
  validUid : Bool
  validGid : Bool
  validCrtime : Bool
  validFlags : Bool
  size : Nat
  atime : Nat
  mtime : Nat
  mode : Nat
  uid : Nat
  gid : Nat
  crtime : Nat
  flags : Nat
deriving DecidableEq, Repr

/-- `Node.Setattr` (node.go): fails with EPERM on a readonly (or archive)
filesystem, otherwise applies exactly the fields the request marks valid,
in source order; a valid size on a non-File node is only logged.  Returns
(error, updated node); the response attributes are the updated node's
attributes. -/
def nodeSetattr (ro : Bool) (n : FsNode) (req : SetattrRequest) (now : Nat) :
    Option FuseErr × FsNode :=
  if nodeIsArchive n || ro then (some FuseErr.eperm, n) else
  let n1 := if req.validAtime then { n with attrs := { n.attrs with atime := req.atime } } else n
  let n2 := if req.validAtimeNow then { n1 with attrs := { n1.attrs with atime := now } } else n1
  let n3 := if req.validMtime then { n2 with attrs := { n2.attrs with mtime := req.mtime } } else n2
  let n4 := if req.validMtimeNow then { n3 with attrs := { n3.attrs with mtime := now } } else n3
  let n5 := if req.validMode then { n4 with attrs := { n4.attrs with mode := req.mode } } else n4
  let n6 := if req.validUid then { n5 with attrs := { n5.attrs with uid := req.uid } } else n5
  let n7 := if req.validGid then { n6 with attrs := { n6.attrs with gid := req.gid } } else n6
  let n8 := if req.validCrtime then { n7 with attrs := { n7.attrs with crtime := req.crtime } } else n7
  let n9 := if req.validFlags then { n8 with attrs := { n8.attrs with flags := req.flags } } else n8
  (none, n9)

/-- `File.Setattr` (file source): fails with EPERM on a readonly (or
archive) filesystem; when the request marks size valid, sets the size
attribute to the requested size and re-slices the buffer to it
(`Data[:req.Size]`, which in Go is out of range — a panic, modelled by
`none` — whenever the requested size exceeds the buffer's length, since
the buffer's capacity equals its length in this embedding); then delegates
all remaining fields to `Node.Setattr`. -/
def fileSetattr (ro : Bool) (f : FsNode) (req : SetattrRequest) (now : Nat) :
    Option (Option FuseErr × FsNode) :=
  if nodeIsArchive f || ro then some (some FuseErr.eperm, f) else
  match f.payload with
  | NodePayload.dir _ => none
  | NodePayload.file data =>
    if req.validSize then
      if req.size ≤ data.length then
        let f1 := { f with attrs := { f.attrs with size := req.size },
                           payload := NodePayload.file (data.take req.size) }
        some (nodeSetattr ro f1 req now)
      else none
    else some (nodeSetattr ro f req now)

/-- `Node.Getxattr` (node.go): looks the name up in the xattr map; if
absent, fails with ErrNoXattr; if present and the requested size is
non-zero, answers `data[:req.Size]` — in Go an out-of-range slice (panic,
modelled by `none`) whenever the requested size exceeds the blob's length —
otherwise the whole blob.  No readonly gate, no atime update. -/
def nodeGetxattr (n : FsNode) (name : String) (reqSize : Nat) :
    Option (Option FuseErr × List Nat) :=
  match alGet n.xattrs name with
  | some data =>
    if reqSize ≠ 0 then
      if reqSize ≤ data.length then some (none, data.take reqSize) else none
    else some (none, data)
  | none => some (some FuseErr.enoxattr, [])

/-! ### Directory operations (dir.go: Create, Mkdir, Remove, Rename)

Each operation receives the heap id of its receiver directory; a
dangling id, or a receiver/entity whose Go static type would make a type
assertion or method dispatch impossible, is `none` (never reachable through
the kernel interface). -/

/-- `Dir.Create` (dir.go): EPERM on readonly/archive; otherwise updates the
directory's atime, allocates a new File via `Node.Init` (id drawn from the
sequence, attributes from `initAttrs` with the request's mode), overrides
the file's uid/gid with the caller's, inserts it into the children under
its name (silently overwriting an existing entry), updates the directory's
mtime and increments `nfiles`.  Returns (error, state, new file id). -/
def fsCreate (fs : FS) (did : Nat) (name : String) (mode : Nat)
    (ruid rgid : Nat) (now : Nat) : Option (Option FuseErr × FS × Nat) :=
  match alGet fs.heap did with
  | none => none
  | some d =>
    if nodeIsArchive d || fs.readonly then some (some FuseErr.eperm, fs, 0) else
    match d.payload with
    | NodePayload.file _ => none
    | NodePayload.dir children =>
      let d1 := { d with attrs := { d.attrs with atime := now } }
      let h1 := alSet fs.heap did d1
      let idres := seqNext fs.seq
      let fid := idres.1.1
      let fnode : FsNode :=
        { id := fid, name := name,
          attrs := { initAttrs fid mode now fs.uid fs.gid with uid := ruid, gid := rgid },
          xattrs := [], parent := some did,
          payload := NodePayload.file [] }
      let d2 := { d1 with payload := NodePayload.dir (alSet children name fid),
                          attrs := { d1.attrs with mtime := now } }
      let h2 := alSet (alSet h1 fid fnode) did d2
      some (none,
            { fs with heap := h2, seq := idres.2, nfiles := (fs.nfiles + 1) % U64 },
            fid)

/-- `Dir.Mkdir` (dir.go): as `Dir.Create` but allocates a child Dir —
`Dir.Init` forces the `os.ModeDir` bit into the mode — and increments
`ndirs`. -/
def fsMkdir (fs : FS) (did : Nat) (name : String) (mode : Nat)
    (ruid rgid : Nat) (now : Nat) : Option (Option FuseErr × FS × Nat) :=
  match alGet fs.heap did with
  | none => none
  | some d =>
    if nodeIsArchive d || fs.readonly then some (some FuseErr.eperm, fs, 0) else
    match d.payload with
    | NodePayload.file _ => none
    | NodePayload.dir children =>
      let d1 := { d with attrs := { d.attrs with atime := now } }
      let h1 := alSet fs.heap did d1
      let idres := seqNext fs.seq
      let cid := idres.1.1
      let cnode : FsNode :=
        { id := cid, name := name,
          attrs := { initAttrs cid (Nat.lor (2 ^ 31) mode) now fs.uid fs.gid with
                     uid := ruid, gid := rgid },
          xattrs := [], parent := some did,
          payload := NodePayload.dir [] }
      let d2 := { d1 with payload := NodePayload.dir (alSet children name cid),
                          attrs := { d1.attrs with mtime := now } }
      let h2 := alSet (alSet h1 cid cnode) did d2
      some (none,
            { fs with heap := h2, seq := idres.2, ndirs := (fs.ndirs + 1) % U64 },
            cid)

/-- Common tail of `Dir.Remove` once the checks have passed: delete the
entry from the children, update the directory's mtime, and decrement
`ndirs` or `nfiles` (uint64 wrap-around) according to the removed entity's
`IsDir`. -/
def fsRemoveCommit (fs : FS) (did : Nat) (d1 : FsNode)
    (children : List (String × Nat)) (name : String) (ent : FsNode)
    (now : Nat) : FS :=
  let d2 := { d1 with payload := NodePayload.dir (alErase children name),
                      attrs := { d1.attrs with mtime := now } }
  let h2 := alSet fs.heap did d2
  if nodeIsDir ent then
    { fs with heap := h2, ndirs := (fs.ndirs + (U64 - 1)) % U64 }
  else
    { fs with heap := h2, nfiles := (fs.nfiles + (U64 - 1)) % U64 }

/-- `Dir.Remove` (dir.go): EPERM on readonly/archive; then updates the
directory's atime (this mutation persists on the error paths below); fails
with `fuse.EEXIST` (the source's encoding of the spec's NotFound) if the
name is absent; for a target whose `IsDir` bit is set, type-asserts it to
`*Dir` (panic — `none` — if it is actually a File) and fails with
`fuse.EIO` (the source's encoding of NotEmpty) if it has children;
otherwise commits the removal. -/
def fsRemove (fs : FS) (did : Nat) (name : String) (now : Nat) :
    Option (Option FuseErr × FS) :=
  match alGet fs.heap did with
  | none => none
  | some d =>
    if nodeIsArchive d || fs.readonly then some (some FuseErr.eperm, fs) else
    match d.payload with
    | NodePayload.file _ => none
    | NodePayload.dir children =>
      let d1 := { d with attrs := { d.attrs with atime := now } }
      let fs1 := { fs with heap := alSet fs.heap did d1 }
      match alGet children name with
      | none => some (some FuseErr.eexist, fs1)
      | some cid =>
        match alGet fs1.heap cid with
        | none => none
        | some ent =>
          if nodeIsDir ent then
            match ent.payload with
            | NodePayload.dir ech =>
              if ech.length > 0 then some (some FuseErr.eio, fs1)
              else some (none, fsRemoveCommit fs1 did d1 children name ent now)
            | NodePayload.file _ => none
          else some (none, fsRemoveCommit fs1 did d1 children name ent now)

/-- `Dir.Rename` (dir.go): EPERM on readonly/archive; updates the source
directory's atime; fails with `fuse.EEXIST` if the destination is not a
directory (the failed type assertion) or — after updating the destination's
atime — if the old name is absent from the source's children.  Otherwise:
renames the moved node and stamps its mtime, inserts it into the
destination's children under the new name and stamps the destination's
mtime, then executes the source line `delete(dst.Children, req.OldName)` —
note: the DESTINATION's children, exactly as written in dir.go:236, even
though its comment says "Delete the entity from the old directory" — and
finally stamps the source directory's mtime.  Every access re-reads the
heap, reproducing Go pointer aliasing when source and destination
coincide. -/
def fsRename (fs : FS) (did : Nat) (oldName : String) (dstId : Nat)
    (newName : String) (now : Nat) : Option (Option FuseErr × FS) :=
  match alGet fs.heap did with
  | none => none
  | some d =>
    if nodeIsArchive d || fs.readonly then some (some FuseErr.eperm, fs) else
    match d.payload with
    | NodePayload.file _ => none
    | NodePayload.dir _ =>
      let h1 := alSet fs.heap did { d with attrs := { d.attrs with atime := now } }
      match alGet h1 dstId with
      | none => none
      | some dst0 =>
        match dst0.payload with
        | NodePayload.file _ => some (some FuseErr.eexist, { fs with heap := h1 })
        | NodePayload.dir _ =>
          let h2 := alSet h1 dstId { dst0 with attrs := { dst0.attrs with atime := now } }
          match alGet h2 did with
          | none => none
          | some d2 =>
            match d2.payload with
            | NodePayload.file _ => none
            | NodePayload.dir dch =>
              match alGet dch oldName with
              | none => some (some FuseErr.eexist, { fs with heap := h2 })
              | some cid =>
                match alGet h2 cid with
                | none => none
                | some ent =>
                  let h3 := alSet h2 cid
                    { ent with name := newName, attrs := { ent.attrs with mtime := now } }
                  match alGet h3 dstId with
                  | none => none
                  | some dst1 =>
                    match dst1.payload with
                    | NodePayload.file _ => none
                    | NodePayload.dir dstCh =>
                      let h4 := alSet h3 dstId
                        { dst1 with payload := NodePayload.dir (alSet dstCh newName cid),
                                    attrs := { dst1.attrs with mtime := now } }
                      match alGet h4 dstId with
                      | none => none
                      | some dst2 =>
                        match dst2.payload with
                        | NodePayload.file _ => none
                        | NodePayload.dir dstCh2 =>
                          let h5 := alSet h4 dstId
                            { dst2 with payload := NodePayload.dir (alErase dstCh2 oldName) }
                          match alGet h5 did with
                          | none => none
                          | some d3 =>
                            let h6 := alSet h5 did
                              { d3 with attrs := { d3.attrs with mtime := now } }
                            some (none, { fs with heap := h6 })

/-! ### Engine construction and reachability observations -/

/-- Modelled from the spec: Engine construction (§4.5) — the engine
constructor that builds the IDGenerator with default bounds, creates the
root Directory (default mode: world-readable/executable, owner
read-write-execute, i.e. 0755 with the directory bit, no parent), captures
the process uid/gid and copies the readonly flag, is in a repository file
absent from src/.  The root draws the first id from the default sequence;
the counters start with no files, no bytes, and the one directory (the
root) that is reachable, as §3's counter invariant requires of the initial
state. -/
def initFS (ro : Bool) (uid gid : Nat) : FS :=
  let idres := seqNext defaultSeq
  let rid := idres.1.1
  let rootNode : FsNode :=
    { id := rid, name := "/",
      attrs := initAttrs rid (Nat.lor (2 ^ 31) 0o755) 0 uid gid,
      xattrs := [], parent := none,
      payload := NodePayload.dir [] }
  { heap := [(rid, rootNode)], rootId := rid, seq := idres.2,
    nfiles := 0, ndirs := 1, nbytes := 0, readonly := ro,
    uid := uid, gid := gid }

/-- The number of File nodes reachable from node `i` through the children
maps, the quantity the spec's counter invariant equates with `nfiles`.
Fuel-bounded recursion; any fuel at least the tree's depth gives the exact
count. -/
def countFilesFuel (h : List (Nat × FsNode)) : Nat → Nat → Nat
  | 0, _ => 0
  | fuel + 1, i =>
    match alGet h i with
    | none => 0
    | some n =>
      match n.payload with
      | NodePayload.file _ => 1
      | NodePayload.dir ch => (ch.map (fun c => countFilesFuel h fuel c.2)).sum

/-- Observation helper: the id bound to `name` in the children of the
directory at heap id `did` (no atime side effect; used only to inspect
states in the theorems below). -/
def dirEntry (fs : FS) (did : Nat) (name : String) : Option Nat :=
  match alGet fs.heap did with
  | some n =>
    match n.payload with
    | NodePayload.dir ch => alGet ch name
    | NodePayload.file _ => none
  | none => none

/-- Observation helper: the stored name of the node at heap id `i`. -/
def nodeNameAt (fs : FS) (i : Nat) : Option String :=
  Option.map (fun n => FsNode.name n) (alGet fs.heap i)

/-! ### Concrete executions used by the refutations -/

/-- Cross-directory rename scenario: from a fresh read-write filesystem
(root id 1), mkdir "A" (id 2) and "B" (id 3) in the root, create file "a"
(id 4) inside A, then rename "a" from A to B as "b".  Reports, in order:
A's entry for "a", B's entry for "b", and node 4's stored name. -/
def renameTrace : Option (Option Nat × Option Nat × Option String) :=
  match fsMkdir (initFS false 1000 1000) 1 "A" 0o755 1000 1000 1 with
  | some (none, fs1, _) =>
    match fsMkdir fs1 1 "B" 0o755 1000 1000 2 with
    | some (none, fs2, _) =>
      match fsCreate fs2 2 "a" 0o644 1000 1000 3 with
      | some (none, fs3, _) =>
        match fsRename fs3 2 "a" 3 "b" 4 with
        | some (none, fs4) =>
          some (dirEntry fs4 2 "a", dirEntry fs4 3 "b", nodeNameAt fs4 4)
        | _ => none
      | _ => none
    | _ => none
  | _ => none

/-- Overwriting-create scenario: from a fresh read-write filesystem, create
"a" in the root twice.  Reports the final `nfiles` counter and the number
of File nodes actually reachable from the root. -/
def createTwiceTrace : Option (Nat × Nat) :=
  match fsCreate (initFS false 1000 1000) 1 "a" 0o644 1000 1000 1 with
  | some (none, fs1, _) =>
    match fsCreate fs1 1 "a" 0o644 1000 1000 2 with
    | some (none, fs2, _) =>
      some (fs2.nfiles, countFilesFuel fs2.heap 8 fs2.rootId)
    | _ => none
  | _ => none

/-- A node carrying a 3-byte extended attribute under "user.test". -/
def xattrNode : FsNode :=
  { id := 5, name := "x", attrs := initAttrs 5 0o644 0 0 0,
    xattrs := [("user.test", [1, 2, 3])], parent := none,
    payload := NodePayload.file [] }

/-- A consistent 2-byte file (size attribute 2, buffer [10, 11]). -/
def shortFile : FsNode :=
  { id := 9, name := "f", attrs := { initAttrs 9 0o644 0 0 0 with size := 2 },
    xattrs := [], parent := none, payload := NodePayload.file [10, 11] }

/-- A consistent 1-byte file. -/
def oneByteFile : FsNode :=
  { id := 11, name := "g", attrs := { initAttrs 11 0o644 0 0 0 with size := 1 },
    xattrs := [], parent := none, payload := NodePayload.file [42] }

/-- A setattr request carrying only a size of 5. -/
def growReq : SetattrRequest :=
  { validSize := true, validAtime := false, validAtimeNow := false,
    validMtime := false, validMtimeNow := false, validMode := false,
    validUid := false, validGid := false, validCrtime := false,
    validFlags := false, size := 5, atime := 0, mtime := 0, mode := 0,
    uid := 0, gid := 0, crtime := 0, flags := 0 }

/-- The root directory node of a freshly constructed filesystem (first id
drawn from the default sequence is 1). -/
def freshRoot (uid gid : Nat) : FsNode :=
  { id := 1, name := "/",
    attrs := initAttrs 1 (Nat.lor (2 ^ 31) 0o755) 0 uid gid,
    xattrs := [], parent := none, payload := NodePayload.dir [] }

/-- A consistent 1-byte file used by the C4 witness. -/
def c4File : FsNode :=
  { id := 13, name := "c4", attrs := { initAttrs 13 0o644 0 0 0 with size := 1 },
    xattrs := [], parent := none, payload := NodePayload.file [42] }

/-- A consistent 3-byte file used by the C5 witness. -/
def c5File : FsNode :=
  { id := 14, name := "c5", attrs := { initAttrs 14 0o644 0 0 0 with size := 3 },
    xattrs := [], parent := none, payload := NodePayload.file [1, 2, 3] }

/-- A consistent 1-byte file used by the C6 witness. -/
def roFile : FsNode :=
  { id := 12, name := "h", attrs := { initAttrs 12 0o644 0 0 0 with size := 1 },
    xattrs := [], parent := none, payload := NodePayload.file [33] }

/-- The root directory of the concrete filesystem used by the C7 witness:
one child, the file "f" at heap id 2. -/
def c7Root : FsNode :=
  { id := 1, name := "/",
    attrs := initAttrs 1 (Nat.lor (2 ^ 31) 0o755) 0 0 0,
    xattrs := [], parent := none,
    payload := NodePayload.dir [("f", 2)] }

/-- The empty file "f" of the C7 witness filesystem. -/
def c7FileNode : FsNode :=
  { id := 2, name := "f", attrs := initAttrs 2 0o644 0 0 0,
    xattrs := [], parent := some 1, payload := NodePayload.file [] }

/-- The concrete filesystem used by the C7 witness: a root directory
holding one empty file. -/
def c7FS : FS :=
  { heap := [(1, c7Root), (2, c7FileNode)], rootId := 1,
    seq := { current := 2, increment := 1, minvalue := 1, maxvalue := U64 - 2 },
    nfiles := 1, ndirs := 1, nbytes := 0, readonly := false,
    uid := 0, gid := 0 }

/-! ### Association-list and sequence lemmas -/

theorem alGet_alSet_self {α β : Type} [DecidableEq α] (l : List (α × β))
    (k : α) (v : β) : alGet (alSet l k v) k = some v := by
  induction l with
  | nil => simp [alGet, alSet]
  | cons p t ih =>
    by_cases h : p.1 = k
    · simp [alSet, alGet, h]
    · simp [alSet, alGet, h, ih]

theorem alGet_alSet_ne {α β : Type} [DecidableEq α] (l : List (α × β))
    (k i : α) (v : β) (h : k ≠ i) : alGet (alSet l k v) i = alGet l i := by
  induction l with
  | nil => simp [alGet, alSet, h]
  | cons p t ih =>
    by_cases hp : p.1 = k
    · simp [alSet, alGet, hp, h]
    · simp [alSet, alGet, hp, ih]

theorem alSet_alSet {α β : Type} [DecidableEq α] (l : List (α × β))
    (k : α) (v w : β) : alSet (alSet l k v) k w = alSet l k w := by
  induction l with
  | nil => simp [alSet]
  | cons p t ih =>
    by_cases hp : p.1 = k
    · simp [alSet, hp]
    · simp [alSet, hp, ih]

/-- The state `Sequence.Next` leaves behind: `current` incremented with
uint64 wrap-around, the bounds untouched, in every branch. -/
theorem seqNext_snd (s : Seq) :
    (seqNext s).2 = { s with current := (s.current + s.increment) % U64 } := by
  unfold seqNext
  by_cases h1 : (s.current + s.increment) % U64 < s.minvalue
  · simp [h1]
  · by_cases h2 : (s.current + s.increment) % U64 > s.maxvalue <;> simp [h1, h2]

/-- The default sequence after `k` calls of `Next`: `current = k mod 2^64`,
bounds unchanged. -/
theorem seqIter_defaultSeq (k : Nat) :
    seqIter defaultSeq k =
      { current := k % U64, increment := 1, minvalue := 1, maxvalue := U64 - 2 } := by
  induction k with
  | zero => simp [seqIter, defaultSeq, Nat.zero_mod]
  | succ n ih =>
    show (seqNext (seqIter defaultSeq n)).2 = _
    rw [ih, seqNext_snd]
    simp only []
    congr 1
    show (n % U64 + 1) % U64 = (n + 1) % U64
    have h1 : 1 % U64 = 1 := Nat.mod_eq_of_lt (by norm_num [U64])
    conv_rhs => rw [Nat.add_mod, h1]

/-! ### The claims -/

/-- C1.  The claim states that after every rename, `oldName` no longer
resolves in the source directory's children, including across distinct
directories.  The source (dir.go:236) instead executes
`delete(dst.Children, req.OldName)` — deleting `oldName` from the
DESTINATION — although its own comment says "Delete the entity from the old
directory".  Evaluating the embedded code on a fresh filesystem with
directories A (id 2) and B (id 3) and a file "a" (id 4) inside A, after
`Rename(A, "a", B, "b")` the destination holds "b" ↦ 4 with the identity
and stored name updated as claimed, but A's children STILL map "a" ↦ 4:
the third component below would have to be `none` for the claim to hold. -/
theorem c1_rename_failing_eval :
    renameTrace = some (some 4, some 4, some "b") := by decide

/-- C3.  The claim states the counter invariant (`nfiles` = number of File
nodes reachable from root) holds after every operation sequence, in
particular after a create that overwrites an existing same-named child.
Evaluating the embedded code: creating "a" in the root of a fresh
filesystem twice leaves `nfiles = 2` while only one File node is reachable
from the root (the second create silently overwrote the first child entry
without decrementing the counter, dir.go:73/79). -/
theorem c3_counters_failing_eval : createTwiceTrace = some (2, 1) := by
  decide

/-- C8.  The claim states `Getxattr` never panics, in particular not when
the requested maximum length exceeds the stored blob's length.  The source
(node.go:196) answers `data[:req.Size]`, an out-of-range slice whenever
`req.Size` exceeds the blob's length: on a node storing a 3-byte blob under
"user.test", a request of size 10 hits the panic branch (`none`), where the
claim requires the stored blob to be returned.  For contrast, the second
and third conjuncts check the in-range truncation and the NoAttribute
answer, which do behave as claimed. -/
theorem c8_getxattr_failing_eval :
    nodeGetxattr xattrNode "user.test" 10 = none
    ∧ nodeGetxattr xattrNode "user.test" 2 = some (none, [1, 2])
    ∧ nodeGetxattr xattrNode "missing" 10 = some (some FuseErr.enoxattr, []) := by
  refine ⟨by decide, by decide, by decide⟩

/-- C9.  The claim states that once the configured upper bound is reached,
every later call of `Next` fails with ResourceExhausted (and no value is
ever duplicated).  The embedded `Sequence.Next` increments a uint64 with
wrap-around: on the engine's default sequence the first call returns 1;
call 2^64 - 1 is the first failing call (the ResourceExhausted condition,
current = 2^64 - 1 above the bound 2^64 - 2); but call 2^64 + 1 — made
after exhaustion — SUCCEEDS and returns 1 again, a duplicate of the first
call's value, because `current` wrapped around zero.  The claim requires
the third conjunct to be a `maxReached` failure. -/
theorem c9_sequence_wrap_eval :
    (seqNext defaultSeq).1 = (1, none)
    ∧ (seqNext (seqIter defaultSeq (U64 - 2))).1 = (0, some SeqErr.maxReached)
    ∧ (seqNext (seqIter defaultSeq U64)).1 = (1, none) := by
  refine ⟨by decide, ?_, ?_⟩
  · rw [seqIter_defaultSeq]
    unfold seqNext
    norm_num [U64]
  · rw [seqIter_defaultSeq]
    unfold seqNext
    norm_num [U64]

/-- C6.  On a filesystem constructed with `readonly = true`, every
invocation of Create, Mkdir, Remove, Write, Setattr (both the File override
and the shared Node path have the same gate) or Flush returns
`fuse.EPERM` (PermissionDenied) and leaves the filesystem state — the
receiver directory's heap, the file, the counters — unchanged: in the
source every one of these operations tests `IsArchive() || fs.readonly`
and returns before acquiring the lock or mutating anything. -/
theorem c6_readonly_rejects (fs : FS) (did : Nat) (d : FsNode)
    (name : String) (mode ruid rgid now nb off : Nat) (p : List Nat)
    (f : FsNode) (req : SetattrRequest)
    (hro : fs.readonly = true)
    (hd : alGet fs.heap did = some d) :
    fsCreate fs did name mode ruid rgid now = some (some FuseErr.eperm, fs, 0)
    ∧ fsMkdir fs did name mode ruid rgid now = some (some FuseErr.eperm, fs, 0)
    ∧ fsRemove fs did name now = some (some FuseErr.eperm, fs)
    ∧ fileWrite fs.readonly nb f off p now = some (some FuseErr.eperm, f, nb, 0)
    ∧ fileSetattr fs.readonly f req now = some (some FuseErr.eperm, f)
    ∧ fileFlush fs.readonly f = some FuseErr.eperm := by
  refine ⟨?_, ?_, ?_, ?_, ?_, ?_⟩ <;>
    simp [fsCreate, fsMkdir, fsRemove, fileWrite, fileSetattr, fileFlush,
      nodeIsArchive, hro, hd]

/-- Witness for C6: the fresh readonly filesystem, its root directory, and
a concrete file/request. -/
theorem c6_readonly_rejects_witness :
    (initFS true 0 0).readonly = true
    ∧ alGet (initFS true 0 0).heap 1 = some (freshRoot 0 0)
    ∧ fsCreate (initFS true 0 0) 1 "a" 420 0 0 7
        = some (some FuseErr.eperm, initFS true 0 0, 0)
    ∧ fsMkdir (initFS true 0 0) 1 "a" 420 0 0 7
        = some (some FuseErr.eperm, initFS true 0 0, 0)
    ∧ fsRemove (initFS true 0 0) 1 "a" 7 = some (some FuseErr.eperm, initFS true 0 0)
    ∧ fileWrite (initFS true 0 0).readonly 3 roFile 0 [1] 7
        = some (some FuseErr.eperm, roFile, 3, 0)
    ∧ fileSetattr (initFS true 0 0).readonly roFile growReq 7
        = some (some FuseErr.eperm, roFile)
    ∧ fileFlush (initFS true 0 0).readonly roFile = some FuseErr.eperm := by
  have h := c6_readonly_rejects (initFS true 0 0) 1 (freshRoot 0 0) "a" 420 0 0 7
    3 0 [1] roFile growReq (by decide) (by decide)
  exact ⟨by decide, by decide, h.1, h.2.1, h.2.2.1, h.2.2.2.1, h.2.2.2.2.1,
    h.2.2.2.2.2⟩

/-- The buffer produced by the growth branch of `File.Write`: taking the
first `off` cells of the freshly allocated zero-filled buffer (old bytes
copied up to `min off data.length`), then the payload, is the old prefix,
a zero gap, and the payload. -/
theorem write_grow_newData (data p : List Nat) (off : Nat) :
    (data.take (min off data.length) ++
        List.replicate (off + p.length - min off data.length) 0).take off
      ++ p.take (min (off + p.length - off) p.length)
      ++ (data.take (min off data.length) ++
            List.replicate (off + p.length - min off data.length) 0).drop
          (off + min (off + p.length - off) p.length)
    = data.take (min off data.length) ++
        List.replicate (off - min off data.length) 0 ++ p := by
  have hmv : min (off + p.length - off) p.length = p.length := by omega
  have hm1 : min off data.length ≤ off := Nat.min_le_left _ _
  have hmA : (data.take (min off data.length)).length = min off data.length := by
    simp only [List.length_take]
    omega
  have hdrop :
      (data.take (min off data.length) ++
        List.replicate (off + p.length - min off data.length) 0).drop
        (off + p.length) = [] := by
    rw [List.drop_eq_nil_iff]
    simp only [List.length_append, List.length_replicate, hmA]
    omega
  have hrep : min (off - min off data.length)
      (off + p.length - min off data.length) = off - min off data.length := by
    omega
  rw [hmv, List.take_length, hdrop, List.append_nil,
    List.take_append_eq_append_take, hmA, List.take_take,
    Nat.min_eq_right hm1, List.take_replicate, hrep]

/-- Evaluation of `File.Write` on a non-readonly filesystem when the write
extends past the current buffer (`olen < off + len(p)`): the new buffer is
the old prefix `[0, min(off, olen))`, a zero gap up to `off`, then the
payload; the size attribute becomes `off + len(p)`, mtime is stamped,
`nbytes` grows by the delta (uint64), and the reported count is
`len(p)`. -/
theorem fileWrite_grow_eval (nb : Nat) (f : FsNode) (data : List Nat)
    (off : Nat) (p : List Nat) (now : Nat)
    (hf : f.payload = NodePayload.file data)
    (hgrow : data.length < off + p.length)
    (hW : off + p.length < U64) :
    fileWrite false nb f off p now =
      some (none,
        { f with
          payload := (NodePayload.file
            (data.take (min off data.length) ++
              List.replicate (off - min off data.length) 0 ++ p)),
          attrs := { f.attrs with size := off + p.length, mtime := now } },
        (nb + (off + p.length - data.length)) % U64, p.length) := by
  have hmod : (off + p.length) % U64 = off + p.length := Nat.mod_eq_of_lt hW
  have hkeep : (if off < data.length then off else data.length)
      = min off data.length := by
    split <;> omega
  simp only [fileWrite, nodeIsArchive, Bool.or_false, Bool.false_eq_true,
    if_false, hf, hmod, hkeep]
  rw [if_pos hgrow, if_pos (Nat.le_add_right off p.length),
    write_grow_newData data p off]

/-- Evaluation of `File.Write` on a non-readonly filesystem when the write
fits inside the current buffer (`off + len(p) ≤ olen`): the payload is
copied in place over `[off, off + len(p))`, mtime is stamped, and neither
the size attribute nor `nbytes` changes. -/
theorem fileWrite_nogrow_eval (nb : Nat) (f : FsNode) (data : List Nat)
    (off : Nat) (p : List Nat) (now : Nat)
    (hf : f.payload = NodePayload.file data)
    (hle : off + p.length ≤ data.length)
    (hW : off + p.length < U64) :
    fileWrite false nb f off p now =
      some (none,
        { f with
          payload := (NodePayload.file
            (data.take off ++ p ++ data.drop (off + p.length))),
          attrs := { f.attrs with mtime := now } },
        nb, p.length) := by
  have hmod : (off + p.length) % U64 = off + p.length := Nat.mod_eq_of_lt hW
  have hmv : min (off + p.length - off) p.length = p.length := by omega
  simp only [fileWrite, nodeIsArchive, Bool.or_false, Bool.false_eq_true,
    if_false, hf, hmod, hmv]
  rw [if_neg (by omega), if_pos (Nat.le_add_right off p.length),
    List.take_length]

/-- C4.  A write of payload `p` at offset `off` with
`end = off + len(p)` beyond the old buffer length, on a non-readonly
filesystem: afterwards the buffer and the size attribute both equal `end`,
`nbytes` grew by exactly `end - oldLength`, the bytes below
`min(off, oldLength)` are the old contents, the bytes `[oldLength, off)`
are zero, the bytes `[off, end)` are `p`, and the reported count is
`len(p)`.  (The realistic side conditions `end < 2^64` and
`nbytes + delta < 2^64` exclude uint64 wrap-around.) -/
theorem c4_write_grow (nb : Nat) (f : FsNode) (data : List Nat)
    (off : Nat) (p : List Nat) (now : Nat)
    (hf : f.payload = NodePayload.file data)
    (hgrow : data.length < off + p.length)
    (hW : off + p.length < U64)
    (hnb : nb + (off + p.length - data.length) < U64) :
    fileWrite false nb f off p now =
      some (none,
        { f with
          payload := (NodePayload.file
            (data.take (min off data.length) ++
              List.replicate (off - min off data.length) 0 ++ p)),
          attrs := { f.attrs with size := off + p.length, mtime := now } },
        nb + (off + p.length - data.length), p.length)
    ∧ (data.take (min off data.length) ++
        List.replicate (off - min off data.length) 0 ++ p).length
        = off + p.length := by
  constructor
  · rw [fileWrite_grow_eval nb f data off p now hf hgrow hW,
      Nat.mod_eq_of_lt hnb]
  · simp [List.length_take, List.length_replicate]
    omega

/-- Witness for C4: writing [7, 8] at offset 3 of a 1-byte file: the new
buffer is the old byte, two zeros, then the payload, size 5, `nbytes`
grows from 10 to 14. -/
theorem c4_write_grow_witness :
    c4File.payload = NodePayload.file [42]
    ∧ (1 : Nat) < 3 + 2
    ∧ fileWrite false 10 c4File 3 [7, 8] 9 =
        some (none,
          { c4File with
            payload := (NodePayload.file
              (([42] : List Nat).take (min 3 1) ++
                List.replicate (3 - min 3 1) 0 ++ [7, 8])),
            attrs := { c4File.attrs with size := 3 + 2, mtime := 9 } },
          10 + (3 + 2 - 1), 2)
    ∧ (([42] : List Nat).take (min 3 1) ++
        List.replicate (3 - min 3 1) 0 ++ [7, 8]).length = 3 + 2 :=
  have h := c4_write_grow 10 c4File [42] 3 [7, 8] 9 (by decide) (by decide)
    (by decide) (by decide)
  ⟨by decide, by decide, h.1, h.2⟩

/-- Evaluation of `File.Read` on a consistent in-range request: when
`off + sz` stays within the size attribute and the size attribute within
the buffer, Read succeeds, stamps atime, and returns the `sz` bytes at
`off`. -/
theorem fileRead_at (f : FsNode) (D : List Nat) (off sz now : Nat)
    (hf : f.payload = NodePayload.file D)
    (hsz2 : off + sz ≤ f.attrs.size)
    (hsize : f.attrs.size ≤ D.length)
    (hW : off + sz < U64) :
    fileRead f off sz now =
      some ({ f with attrs := { f.attrs with atime := now } },
            (D.drop off).take sz) := by
  have hmod : (off + sz) % U64 = off + sz := Nat.mod_eq_of_lt hW
  simp only [fileRead, hf, hmod]
  have hgt : ¬ (off + sz > f.attrs.size) := by omega
  rw [if_neg hgt,
    if_pos (⟨Nat.le_add_right off sz, by omega⟩ :
      off ≤ off + sz ∧ off + sz ≤ D.length)]
  have h1 : off + sz - off = sz := by omega
  rw [h1]

/-- C5.  Write-then-Read round trip: for any consistent file, any offset
not exceeding the prior size and any payload, writing the payload at the
offset and then reading `len(p)` bytes back at the same offset (with no
intervening operation, on a non-readonly filesystem) returns exactly the
written payload. -/
theorem c5_write_read_roundtrip (nb : Nat) (f : FsNode) (data : List Nat)
    (off : Nat) (p : List Nat) (now1 now2 : Nat)
    (hf : f.payload = NodePayload.file data)
    (hsz : f.attrs.size = data.length)
    (hoff : off ≤ data.length)
    (hW : off + p.length < U64) :
    Option.map (fun r => r.2)
      ((fileWrite false nb f off p now1).bind
        (fun r => fileRead r.2.1 off p.length now2)) = some p := by
  have hmin : min off data.length = off := Nat.min_eq_left hoff
  by_cases hg : data.length < off + p.length
  · rw [fileWrite_grow_eval nb f data off p now1 hf hg hW]
    simp only [Option.bind]
    have hAlen : (data.take (min off data.length) ++
        List.replicate (off - min off data.length) 0).length = off := by
      simp only [List.length_append, List.length_take, List.length_replicate]
      omega
    rw [fileRead_at _
      (data.take (min off data.length) ++
        List.replicate (off - min off data.length) 0 ++ p)
      off p.length now2 rfl (Nat.le_refl _)
      (by simp only [List.length_append, hAlen]; omega) hW]
    rw [List.drop_left' hAlen, List.take_length]
    rfl
  · have hle : off + p.length ≤ data.length := by omega
    rw [fileWrite_nogrow_eval nb f data off p now1 hf hle hW]
    simp only [Option.bind]
    have hAlen : (data.take off).length = off := by
      simp only [List.length_take]
      omega
    have hsz2 : off + p.length ≤
        ({ f with
           payload := (NodePayload.file
             (data.take off ++ p ++ data.drop (off + p.length))),
           attrs := { f.attrs with mtime := now1 } } : FsNode).attrs.size := by
      show off + p.length ≤ f.attrs.size
      omega
    have hsize :
        ({ f with
           payload := (NodePayload.file
             (data.take off ++ p ++ data.drop (off + p.length))),
           attrs := { f.attrs with mtime := now1 } } : FsNode).attrs.size ≤
        (data.take off ++ p ++ data.drop (off + p.length)).length := by
      show f.attrs.size ≤ _
      simp only [List.length_append, List.length_take, List.length_drop]
      omega
    rw [fileRead_at _ (data.take off ++ p ++ data.drop (off + p.length))
      off p.length now2 rfl hsz2 hsize hW]
    rw [List.append_assoc, List.drop_left' hAlen, List.take_left]
    rfl

/-- Witness for C5: writing [7, 8] at offset 1 of the 3-byte file [1, 2, 3]
and reading 2 bytes back at offset 1 returns [7, 8]. -/
theorem c5_write_read_roundtrip_witness :
    c5File.payload = NodePayload.file [1, 2, 3]
    ∧ c5File.attrs.size = 3
    ∧ (1 : Nat) ≤ 3
    ∧ Option.map (fun r => r.2)
        ((fileWrite false 20 c5File 1 [7, 8] 4).bind
          (fun r => fileRead r.2.1 1 2 5)) = some [7, 8] :=
  ⟨by decide, by decide, by decide,
   c5_write_read_roundtrip 20 c5File [1, 2, 3] 1 [7, 8] 4 5 (by decide)
     (by decide) (by decide) (by decide)⟩

/-- C2 counterexample.  The claim states Read never fails and returns an
empty (not erroneous) result when the offset is beyond the current size.
On the embedded code, reading 1 byte at offset 3 from a 2-byte file takes
the panic branch — the Go slice `Data[3:2]` is out of range
(file source, Read) — instead of returning an empty result. -/
theorem c2_read_offset_counterexample : fileRead shortFile 3 1 0 = none := by
  decide

/-- C2 amended.  For every consistent file (buffer length = size
attribute) and every read with `offset ≤ currentSize`, Read never errors:
it returns exactly the bytes `[offset, min(offset + size, currentSize))` —
that is, exactly `min(offset + size, currentSize) - offset` bytes, which is
`currentSize - offset` when `offset + size` exceeds the current size — and
updates atime.  (The unrestricted claim fails: for `offset > currentSize`
the source's slice is out of range, see the C2 counterexample.) -/
theorem c2_read_amended (f : FsNode) (data : List Nat) (off sz now : Nat)
    (hf : f.payload = NodePayload.file data)
    (hsz : f.attrs.size = data.length)
    (hoff : off ≤ data.length)
    (hW : off + sz < U64) :
    fileRead f off sz now =
      some ({ f with attrs := { f.attrs with atime := now } },
            (data.drop off).take (min (off + sz) data.length - off))
    ∧ ((data.drop off).take (min (off + sz) data.length - off)).length
        = min (off + sz) data.length - off := by
  have hmod : (off + sz) % U64 = off + sz := Nat.mod_eq_of_lt hW
  constructor
  · simp only [fileRead, hf, hmod, hsz]
    by_cases hgt : data.length < off + sz
    · have hmin : min (off + sz) data.length = data.length := by omega
      rw [if_pos hgt, if_pos ⟨hoff, Nat.le_refl _⟩, hmin]
    · have hmin : min (off + sz) data.length = off + sz := by omega
      rw [if_neg hgt, if_pos ⟨by omega, by omega⟩, hmin]
  · have hle : min (off + sz) data.length ≤ data.length := Nat.min_le_right _ _
    simp only [List.length_take, List.length_drop]
    omega

/-- Witness for C2's amended theorem: reading 5 bytes at offset 1 of the
2-byte file returns exactly its final byte. -/
theorem c2_read_amended_witness :
    shortFile.payload = NodePayload.file [10, 11]
    ∧ shortFile.attrs.size = 2
    ∧ (1 : Nat) ≤ 2
    ∧ fileRead shortFile 1 5 8 =
        some ({ shortFile with
                attrs := { shortFile.attrs with atime := 8 } },
              (([10, 11] : List Nat).drop 1).take (min (1 + 5) 2 - 1))
    ∧ ((([10, 11] : List Nat).drop 1).take (min (1 + 5) 2 - 1)).length
        = min (1 + 5) 2 - 1 :=
  have h := c2_read_amended shortFile [10, 11] 1 5 8 (by decide) (by decide)
    (by decide) (by decide)
  ⟨by decide, by decide, by decide, h.1, h.2⟩

/-- The uint64 decrement `(n + (2^64 - 1)) mod 2^64` is plain `n - 1` for
counters in range `0 < n < 2^64`. -/
theorem u64_dec_eq (n : Nat) (h0 : 0 < n) (hW : n < U64) :
    (n + (U64 - 1)) % U64 = n - 1 := by
  have hU : 0 < U64 := by norm_num [U64]
  have h2 : n + (U64 - 1) = (n - 1) + U64 := by omega
  rw [h2, Nat.add_mod_right]
  exact Nat.mod_eq_of_lt (by omega)

/-- C7.  `Dir.Remove` on a non-readonly filesystem, for a receiver
directory `d` at heap id `did` with children `ch` (counters in uint64
range, and the removed child at a heap id distinct from the receiver's, as
the tree shape guarantees):
* an absent name fails with `fuse.EEXIST` — the source's encoding of the
  spec's NotFound (dir.go:166) — leaving everything except the receiver's
  atime unchanged;
* a directory child with at least one child of its own fails with
  `fuse.EIO` — the source's encoding of NotEmpty (dir.go:172) — again
  leaving everything except the receiver's atime unchanged;
* a file child (IsDir bit clear) is deleted from the children, the
  receiver's mtime is stamped and exactly `nfiles` drops by one;
* an empty directory child is deleted likewise and exactly `ndirs` drops
  by one. -/
theorem c7_remove_cases (fs : FS) (did : Nat) (name : String) (now : Nat)
    (d : FsNode) (ch : List (String × Nat))
    (hro : fs.readonly = false)
    (hd : alGet fs.heap did = some d)
    (hch : d.payload = NodePayload.dir ch) :
    (alGet ch name = none →
      fsRemove fs did name now =
        some (some FuseErr.eexist,
          { fs with
            heap := (alSet fs.heap did
              { d with attrs := { d.attrs with atime := now } }) }))
    ∧ (∀ cid ent ech, alGet ch name = some cid → did ≠ cid →
        alGet fs.heap cid = some ent →
        nodeIsDir ent = true → ent.payload = NodePayload.dir ech →
        0 < ech.length →
        fsRemove fs did name now =
          some (some FuseErr.eio,
            { fs with
              heap := (alSet fs.heap did
                { d with attrs := { d.attrs with atime := now } }) }))
    ∧ (∀ cid ent, alGet ch name = some cid → did ≠ cid →
        alGet fs.heap cid = some ent → nodeIsDir ent = false →
        0 < fs.nfiles → fs.nfiles < U64 →
        fsRemove fs did name now =
          some (none,
            { fs with
              heap := (alSet fs.heap did
                { d with
                  attrs := { d.attrs with atime := now, mtime := now },
                  payload := NodePayload.dir (alErase ch name) }),
              nfiles := fs.nfiles - 1 }))
    ∧ (∀ cid ent, alGet ch name = some cid → did ≠ cid →
        alGet fs.heap cid = some ent → nodeIsDir ent = true →
        ent.payload = NodePayload.dir [] →
        0 < fs.ndirs → fs.ndirs < U64 →
        fsRemove fs did name now =
          some (none,
            { fs with
              heap := (alSet fs.heap did
                { d with
                  attrs := { d.attrs with atime := now, mtime := now },
                  payload := NodePayload.dir (alErase ch name) }),
              ndirs := fs.ndirs - 1 })) := by
  refine ⟨?_, ?_, ?_, ?_⟩
  · intro hnone
    simp [fsRemove, hd, nodeIsArchive, hro, hch, hnone]
  · intro cid ent ech hlk hne hcid hdir hpl h0
    simp only [fsRemove, hd, nodeIsArchive, hro, Bool.or_self, Bool.false_eq_true,
      if_false, hch, hlk]
    rw [alGet_alSet_ne fs.heap did cid _ hne, hcid]
    simp [hdir, hpl, h0]
  · intro cid ent hlk hne hcid hdir h0 hWn
    simp only [fsRemove, hd, nodeIsArchive, hro, Bool.or_self, Bool.false_eq_true,
      if_false, hch, hlk]
    rw [alGet_alSet_ne fs.heap did cid _ hne, hcid]
    simp only [hdir, Bool.false_eq_true, if_false, fsRemoveCommit, alSet_alSet,
      u64_dec_eq fs.nfiles h0 hWn]
  · intro cid ent hlk hne hcid hdir hpl h0 hWn
    simp only [fsRemove, hd, nodeIsArchive, hro, Bool.or_self, Bool.false_eq_true,
      if_false, hch, hlk]
    rw [alGet_alSet_ne fs.heap did cid _ hne, hcid]
    simp only [hdir, hpl, if_true, List.length_nil, Nat.lt_irrefl, if_false,
      fsRemoveCommit, alSet_alSet, u64_dec_eq fs.ndirs h0 hWn]

/-- Witness for C7 at a concrete input, exercising the file-removal branch:
removing "f" from the root deletes the child, stamps atime/mtime and drops
`nfiles` from 1 to 0. -/
theorem c7_remove_cases_witness :
    c7FS.readonly = false
    ∧ alGet c7FS.heap 1 = some c7Root
    ∧ alGet [("f", (2 : Nat))] "f" = some 2
    ∧ nodeIsDir c7FileNode = false
    ∧ fsRemove c7FS 1 "f" 5 =
        some (none,
          { c7FS with
            heap := (alSet c7FS.heap 1
              { c7Root with
                attrs := { c7Root.attrs with atime := 5, mtime := 5 },
                payload := NodePayload.dir (alErase [("f", 2)] "f") }),
            nfiles := c7FS.nfiles - 1 }) :=
  have h := c7_remove_cases c7FS 1 "f" 5 c7Root [("f", 2)] (by decide)
    (by decide) (by decide)
  ⟨by decide, by decide, by decide, by decide,
   h.2.2.1 2 c7FileNode (by decide) (by decide) (by decide) (by decide)
     (by decide) (by decide)⟩

/-- C10.  `File.Setattr` with a valid size field is only total for
shrinking: whenever the requested size exceeds the buffer's length (and the
filesystem is not readonly), the embedded operation reaches its error
branch — the source sets the size attribute and then panics on the
out-of-range reslice `Data[:req.Size]` — rather than growing the buffer or
returning an error value. -/
theorem c10_setattr_grow_panics (f : FsNode) (data : List Nat)
    (req : SetattrRequest) (now : Nat)
    (hf : f.payload = NodePayload.file data)
    (hv : req.validSize = true)
    (hgt : data.length < req.size) :
    fileSetattr false f req now = none := by
  have hle : ¬ req.size ≤ data.length := by omega
  simp [fileSetattr, nodeIsArchive, hf, hv, hle]

/-- Witness for C10 at a concrete input: a file holding one byte, a setattr
request for size 5. -/
theorem c10_setattr_grow_panics_witness :
    oneByteFile.payload = NodePayload.file [42]
    ∧ growReq.validSize = true
    ∧ (1 : Nat) < growReq.size
    ∧ fileSetattr false oneByteFile growReq 9 = none :=
  ⟨by decide, by decide, by decide,
   c10_setattr_grow_panics oneByteFile [42] growReq 9 (by decide) (by decide)
     (by decide)⟩

end Memfs
